import Mathlib

/-!
Verification development for the NuCachedSource2 read-ahead cache
(media/libstagefright/NuCachedSource2.cpp).

The C++ code is shallowly embedded: a page is modelled by the list of its
meaningful bytes (so a page's mSize is the list length), the PageCache's
active-page list by a list of pages, and the engine's fields by a record.
size_t arithmetic that can wrap is modelled explicitly with reduction
modulo 2^64; off64_t values are modelled as unbounded Int (their physical
range, 2^63 bytes, is far beyond any stream this cache fronts).
The free-page list is not modelled: released pages have their fill reset
to zero on release and their stale contents are never observable through
copy, so recycling has no effect on any observable behaviour.
-/

namespace NuCached

namespace PageCache

/-- A page, as the list of its meaningful bytes; mSize is the length. -/
abbrev Page := List Nat

/-- mTotalSize: the source maintains it incrementally as the sum of the active
pages' sizes (appendPage adds, releaseFromStart subtracts the released sizes);
here it is the derived sum over the active list. -/
def totalSize (pages : List Page) : Nat := (pages.map List.length).sum

/-- PageCache::releaseFromStart: pop whole pages from the head while the budget
allows, returning (bytes released, remaining active pages). -/
def releaseFromStart : List Page → Nat → Nat × List Page
  | [], _ => (0, [])
  | p :: ps, maxBytes =>
    if maxBytes = 0 then (0, p :: ps)
    else if maxBytes < p.length then (0, p :: ps)
    else
      let r := releaseFromStart ps (maxBytes - p.length)
      (p.length + r.1, r.2)

/-- The tail loop of PageCache::copy: after the first (partially consumed) page,
copy min(page size, bytes still wanted) from each subsequent page. -/
def copyRest : List Page → Nat → List Nat
  | [], _ => []
  | p :: ps, size =>
    if size = 0 then []
    else p.take (min p.length size) ++ copyRest ps (size - min p.length size)

/-- The body of PageCache::copy for size > 0: skip whole pages while the start
offset lies beyond them, then read from the first page reached and, if the
request spans further, fall into the tail loop. -/
def copyAux : List Page → Nat → Nat → List Nat
  | [], _, _ => []
  | p :: ps, start, size =>
    if p.length ≤ start then copyAux ps (start - p.length) size
    else
      if size ≤ p.length - start then (p.drop start).take size
      else p.drop start ++ copyRest ps (size - (p.length - start))

/-- PageCache::copy(from, data, size): returns the bytes written to data. -/
def copy (pages : List Page) (start size : Nat) : List Nat :=
  if size = 0 then [] else copyAux pages start size

end PageCache

/-- Modelled from the spec: status values from MediaErrors.h / errno, which are
not among the provided sources.  Only the facts that OK is zero and the error
codes are distinct negative values matter anywhere below. -/
def OK : Int := 0

/-- Modelled from the spec: ERROR_END_OF_STREAM status value. -/
def ERROR_END_OF_STREAM : Int := -1011

/-- Modelled from the spec: ERROR_UNSUPPORTED status value. -/
def ERROR_UNSUPPORTED : Int := -1010

/-- Modelled from the spec: errno EPIPE value; the code uses -EPIPE. -/
def EPIPE : Int := 32

/-- Modelled from the spec: errno EAGAIN value; the code uses -EAGAIN. -/
def EAGAIN : Int := 11

/-- Modelled from the spec: constants from include/NuCachedSource2.h (not among
the provided sources); values as the spec states them: page size 64 KiB. -/
def kPageSize : Nat := 65536

/-- Modelled from the spec: MAX_RETRIES default 10. -/
def kMaxNumRetries : Nat := 10

/-- Modelled from the spec: default low-water threshold, 2 MiB. -/
def kDefaultLowWaterThreshold : Nat := 2 * 1024 * 1024

/-- Modelled from the spec: default high-water threshold, 20 MiB. -/
def kDefaultHighWaterThreshold : Nat := 20 * 1024 * 1024

/-- Modelled from the spec: default keep-alive interval, 15 s in microseconds. -/
def kDefaultKeepAliveIntervalUs : Int := 15000000

/-- size_t conversion of an off64_t expression: reduction modulo 2^64.
This is where the unsigned wrap-around the code relies on is made explicit. -/
def sizeT (i : Int) : Nat := (i % (2 ^ 64 : Int)).toNat

/-- The engine's lock-protected fields (NuCachedSource2's members).  mCache is
the PageCache's active-page list; the free list is unobservable and omitted. -/
structure EngineState where
  mCache : List PageCache.Page
  mCacheOffset : Int
  mLastAccessPos : Int
  mFinalStatus : Int
  mNumRetriesLeft : Nat
  mFetching : Bool
  mDisconnecting : Bool
  mSuspended : Bool
  mLastFetchTimeUs : Int
  mHighwaterThresholdBytes : Nat
  mLowwaterThresholdBytes : Nat
  mKeepAliveIntervalUs : Int
  mDisconnectAtHighwatermark : Bool
  mIsProxyConfigured : Bool
  mQueryAndSetProxy : Bool
  deriving DecidableEq, Repr

/-- Total bytes currently cached, mCache->totalSize(). -/
def EngineState.total (s : EngineState) : Nat := PageCache.totalSize s.mCache

/-- The gray area constant of restartPrefetcherIfNecessary_l (1 MiB). -/
def kGrayArea : Nat := 1024 * 1024

/-- NuCachedSource2::restartPrefetcherIfNecessary_l.  The two subtractions that
the code performs in size_t are modelled through sizeT (reduction mod 2^64):
both mCacheOffset + totalSize() - mLastAccessPos and
mLastAccessPos - mCacheOffset wrap when negative. -/
def restartPrefetcherIfNecessary_l (ignoreLowWaterThreshold force : Bool)
    (s : EngineState) : EngineState :=
  if s.mFetching = true ∨ (s.mFinalStatus ≠ OK ∧ s.mNumRetriesLeft = 0) then s
  else if ignoreLowWaterThreshold = false ∧ force = false
      ∧ sizeT (s.mCacheOffset + (s.total : Int) - s.mLastAccessPos)
          ≥ s.mLowwaterThresholdBytes then s
  else if force = false ∧ sizeT (s.mLastAccessPos - s.mCacheOffset) < kGrayArea
    then s
  else
    let maxBytes :=
      if force = false then sizeT (s.mLastAccessPos - s.mCacheOffset) - kGrayArea
      else sizeT (s.mLastAccessPos - s.mCacheOffset)
    let res := PageCache.releaseFromStart s.mCache maxBytes
    { s with mCache := res.2,
             mCacheOffset := s.mCacheOffset + (res.1 : Int),
             mFetching := true }

/-- NuCachedSource2::seekInternal_l: returns (status, new state). -/
def seekInternal_l (offset : Int) (s : EngineState) : Int × EngineState :=
  let s1 := { s with mLastAccessPos := offset }
  if offset ≥ s1.mCacheOffset ∧ offset ≤ s1.mCacheOffset + (s1.total : Int) then
    (OK, s1)
  else
    let res := PageCache.releaseFromStart s1.mCache s1.total
    (OK, { s1 with mCacheOffset := offset,
                   mCache := res.2,
                   mNumRetriesLeft := kMaxNumRetries,
                   mFetching := true })

/-- Outcome of NuCachedSource2::readAt as observable on the caller thread:
either it completes under the lock (status/byte count, new state, bytes
delivered to the destination buffer), or it posts a kWhatRead message and
blocks on the condition variable (slow path). -/
inductive ReadAtOutcome where
  | done (result : Int) (s : EngineState) (data : List Nat)
  | posted
  deriving DecidableEq, Repr

/-- NuCachedSource2::readAt up to the point where it would block. -/
def readAt (s : EngineState) (offset : Int) (size : Nat) : ReadAtOutcome :=
  if s.mDisconnecting = true then .done ERROR_END_OF_STREAM s []
  else if offset ≥ s.mCacheOffset
      ∧ offset + (size : Int) ≤ s.mCacheOffset + (s.total : Int) then
    .done (size : Int) { s with mLastAccessPos := offset + (size : Int) }
      (PageCache.copy s.mCache (sizeT (offset - s.mCacheOffset)) size)
  else .posted

/-- The mutations NuCachedSource2::readInternal performs before deciding how to
answer: the idle-poke restart (which first moves mLastAccessPos to the request
offset) and the out-of-window seek with 256 KiB back-padding. -/
def kPadding : Int := 256 * 1024

/-- State of the engine after readInternal's restart/seek phase. -/
def readInternalMid (s : EngineState) (offset : Int) : EngineState :=
  let s1 :=
    if s.mFetching = false then
      restartPrefetcherIfNecessary_l false true { s with mLastAccessPos := offset }
    else s
  if offset < s1.mCacheOffset ∨ offset ≥ s1.mCacheOffset + (s1.total : Int) then
    (seekInternal_l (if offset > kPadding then offset - kPadding else 0) s1).2
  else s1

/-- NuCachedSource2::readInternal: returns (result, new state, bytes written
into the destination buffer).  A negative result is a status; -EAGAIN means
the handler reposts the read. -/
def readInternal (s : EngineState) (offset : Int) (size : Nat) :
    Int × EngineState × List Nat :=
  let s1 := readInternalMid s offset
  let delta := sizeT (offset - s1.mCacheOffset)
  if s1.mFinalStatus ≠ OK ∧ s1.mNumRetriesLeft = 0 then
    if delta ≥ s1.total then (s1.mFinalStatus, s1, [])
    else
      let avail := min (s1.total - delta) size
      (avail, s1, PageCache.copy s1.mCache delta avail)
  else if offset + (size : Int) ≤ s1.mCacheOffset + (s1.total : Int) then
    ((size : Int), s1, PageCache.copy s1.mCache delta size)
  else (-EAGAIN, s1, [])

/-- NuCachedSource2::approxDataRemaining_l: (bytes remaining ahead of the
reader, the status written to the out parameter). -/
def approxDataRemaining_l (s : EngineState) : Nat × Int :=
  let st := if s.mFinalStatus ≠ OK ∧ s.mNumRetriesLeft > 0 then OK
            else s.mFinalStatus
  if s.mLastAccessPos < s.mCacheOffset + (s.total : Int) then
    ((s.mCacheOffset + (s.total : Int) - s.mLastAccessPos).toNat, st)
  else (0, st)

/-- NuCachedSource2::disconnect.  The upstream source is external; all the
engine observes of it here is whether its flags contain kIsHTTPBasedSource.
When they do, the engine sets mDisconnecting under the lock and signals the
condition variable (the signal itself has no state content); otherwise the
body is skipped entirely. -/
def disconnect (sourceIsHTTP : Bool) (s : EngineState) : EngineState :=
  if sourceIsHTTP then { s with mDisconnecting := true } else s

/-- Inputs a single prefetcher activation obtains from outside the engine:
the clock readings, the outcome of mSource->reconnectAtOffset, the outcome of
mSource->readAt (readResult, with pageData the bytes it deposited in the page,
so that pageData.length is the page's resulting mSize when readResult > 0),
and the upstream's HTTP flag. -/
structure FetchEnv where
  nowUs : Int
  nowUs2 : Int
  reconnectErr : Int
  reconnectProxyOut : Bool
  readResult : Int
  pageData : List Nat
  sourceIsHTTP : Bool
  deriving DecidableEq, Repr

/-- The tail of NuCachedSource2::fetchInternal: one upstream read and the
triage of its result under the lock. -/
def fetchRead (env : FetchEnv) (s : EngineState) : EngineState :=
  if env.readResult = 0 ∨ s.mDisconnecting = true then
    { s with mNumRetriesLeft := 0, mFinalStatus := ERROR_END_OF_STREAM }
  else if env.readResult < 0 then
    if env.readResult = ERROR_UNSUPPORTED ∨ env.readResult = -EPIPE then
      { s with mFinalStatus := env.readResult, mNumRetriesLeft := 0 }
    else { s with mFinalStatus := env.readResult }
  else
    { s with mNumRetriesLeft := kMaxNumRetries, mFinalStatus := OK,
             mCache := s.mCache ++ [env.pageData] }

/-- The proxy bookkeeping around mSource->reconnectAtOffset: the noproxy
fallback disables keep-alive, and mQueryAndSetProxy (the out parameter) is
copied into mIsProxyConfigured. -/
def fetchReconnectUpdate (env : FetchEnv) (s : EngineState) : EngineState :=
  if s.mIsProxyConfigured = true ∧ env.reconnectProxyOut = false
      ∧ s.mDisconnectAtHighwatermark = true then
    { s with mKeepAliveIntervalUs := 0,
             mQueryAndSetProxy := env.reconnectProxyOut,
             mIsProxyConfigured := env.reconnectProxyOut }
  else
    { s with mQueryAndSetProxy := env.reconnectProxyOut,
             mIsProxyConfigured := env.reconnectProxyOut }

/-- The triage of the reconnect result under the re-acquired lock:
disconnecting latches EOF, permanent errors zero the retries, other errors
return without reading, success falls through to the read. -/
def fetchTriage (env : FetchEnv) (s3 : EngineState) : EngineState :=
  if s3.mDisconnecting = true then
    { s3 with mNumRetriesLeft := 0, mFinalStatus := ERROR_END_OF_STREAM }
  else if env.reconnectErr = ERROR_UNSUPPORTED ∨ env.reconnectErr = -EPIPE then
    { s3 with mNumRetriesLeft := 0 }
  else if env.reconnectErr ≠ OK then s3
  else fetchRead env s3

/-- NuCachedSource2::fetchInternal.  Its CHECK(mFinalStatus == OK ||
mNumRetriesLeft > 0) is a precondition, not modelled.  On a retry it decrements
the retry counter and reconnects (unless suspended); a reconnect that fails, or
that finds the engine disconnecting, returns without reading. -/
def fetchInternal (env : FetchEnv) (s : EngineState) : EngineState :=
  if s.mFinalStatus ≠ OK then
    let s1 := { s with mNumRetriesLeft := s.mNumRetriesLeft - 1 }
    if s1.mSuspended = false then fetchTriage env (fetchReconnectUpdate env s1)
    else fetchRead env s1
  else fetchRead env s

/-- onFetch step 1: a terminal failure (non-OK status with no retries left)
stops prefetching. -/
def onFetchStep1 (s : EngineState) : EngineState :=
  if s.mFinalStatus ≠ OK ∧ s.mNumRetriesLeft = 0 then { s with mFetching := false }
  else s

/-- onFetch step 2: a retryable failure with a configured proxy requests proxy
re-negotiation on the next reconnect. -/
def onFetchStep2 (s : EngineState) : EngineState :=
  if (s.mFinalStatus ≠ OK ∧ s.mNumRetriesLeft > 0) ∧ s.mIsProxyConfigured = true
  then { s with mQueryAndSetProxy := true }
  else s

/-- The fetch arm of onFetch: one fetchInternal, the fetch-time stamp, and the
high-watermark cutoff with its optional disconnect-at-highwater status write. -/
def onFetchFetchPhase (env : FetchEnv) (s2 : EngineState) : EngineState :=
  let s3 := fetchInternal env s2
  let s4 := { s3 with mLastFetchTimeUs := env.nowUs2 }
  if s4.mFetching = true ∧ s4.total ≥ s4.mHighwaterThresholdBytes then
    let s5 := { s4 with mFetching := false }
    if s5.mDisconnectAtHighwatermark = true ∧ env.sourceIsHTTP = true
        ∧ s5.mIsProxyConfigured = false then
      { s5 with mFinalStatus := -EAGAIN }
    else s5
  else s4

/-- The suspended epilogue of onFetch: disconnect upstream (external), latch
-EAGAIN, and do not reschedule. -/
def onFetchEpilogue (s6 : EngineState) : EngineState :=
  if s6.mSuspended = true then { s6 with mFinalStatus := -EAGAIN } else s6

/-- NuCachedSource2::onFetch: one activation of the recurring kWhatFetchMore
message.  The delay computation and the repost only affect scheduling, not the
engine state. -/
def onFetch (env : FetchEnv) (s : EngineState) : EngineState :=
  let s2 := onFetchStep2 (onFetchStep1 s)
  onFetchEpilogue
    (if s2.mFetching = true
        ∨ (s2.mFetching = false ∧ s2.mFinalStatus = OK
            ∧ s2.mKeepAliveIntervalUs > 0
            ∧ env.nowUs ≥ s2.mLastFetchTimeUs + s2.mKeepAliveIntervalUs) then
      onFetchFetchPhase env s2
    else restartPrefetcherIfNecessary_l false false s2)

/-- Characters the scanf whitespace directive consumes. -/
def isScanSpace (c : Char) : Bool :=
  c = ' ' ∨ c = '\t' ∨ c = '\n' ∨ c = '\r' ∨ c = '\x0b' ∨ c = '\x0c'

/-- Drop leading scanf whitespace. -/
def skipSpaces : List Char → List Char
  | [] => []
  | c :: cs => if isScanSpace c then skipSpaces cs else c :: cs

/-- Read a maximal nonempty run of decimal digits as a Nat. -/
def scanDigits (cs : List Char) : Option (Nat × List Char) :=
  if (cs.takeWhile Char.isDigit) = [] then none
  else some ((cs.takeWhile Char.isDigit).foldl
      (fun a c => a * 10 + (c.toNat - 48)) 0,
    cs.dropWhile Char.isDigit)

/-- One %zd / %d conversion: skip whitespace, optional sign, digits. -/
def scanInt (cs : List Char) : Option (Int × List Char) :=
  match skipSpaces cs with
  | '-' :: rest => (scanDigits rest).map (fun p => (-(p.1 : Int), p.2))
  | '+' :: rest => (scanDigits rest).map (fun p => ((p.1 : Int), p.2))
  | other => (scanDigits other).map (fun p => ((p.1 : Int), p.2))

/-- A literal character directive: must match exactly, no whitespace skip. -/
def expectChar (c : Char) : List Char → Option (List Char)
  | [] => none
  | x :: xs => if x = c then some xs else none

/-- Modelled from the spec: the sscanf(s, "%zd/%zd/%d", ...) call of
updateCacheParamsFromString.  The C library's sscanf is not part of this
repository's sources; the spec fixes the format string.  Returns the three
converted integers when all three conversions succeed (sscanf result 3),
none otherwise. -/
def scanCacheParams (s : String) : Option (Int × Int × Int) :=
  match scanInt s.toList with
  | none => none
  | some (lo, r1) =>
    match expectChar '/' r1 with
    | none => none
    | some r2 =>
      match scanInt r2 with
      | none => none
      | some (hi, r3) =>
        match expectChar '/' r3 with
        | none => none
        | some r4 =>
          match scanInt r4 with
          | none => none
          | some (ka, _) => some (lo, hi, ka)

/-- NuCachedSource2::updateCacheParamsFromString: on a parse failure (fewer
than three conversions) nothing changes; otherwise the three parameters are
assigned in order, with the low/high revert check between the watermark and
keep-alive assignments, exactly as the code does. -/
def updateCacheParamsFromString (cfg : String) (s : EngineState) : EngineState :=
  match scanCacheParams cfg with
  | none => s
  | some (lo, hi, ka) =>
    let s1 := { s with
      mLowwaterThresholdBytes :=
        if lo ≥ 0 then (lo * 1024).toNat else kDefaultLowWaterThreshold,
      mHighwaterThresholdBytes :=
        if hi ≥ 0 then (hi * 1024).toNat else kDefaultHighWaterThreshold }
    let s2 :=
      if s1.mLowwaterThresholdBytes ≥ s1.mHighwaterThresholdBytes then
        { s1 with mLowwaterThresholdBytes := kDefaultLowWaterThreshold,
                  mHighwaterThresholdBytes := kDefaultHighWaterThreshold }
      else s1
    { s2 with mKeepAliveIntervalUs :=
        if ka ≥ 0 then ka * 1000000 else kDefaultKeepAliveIntervalUs }

/-- Follows the spec's words (refinement side for the configuration claim):
given the three parsed tokens, a token ≥ 0 sets its parameter (lo and hi in
KiB, keepalive in seconds), a negative token yields the default, and if the
resulting lo_water ≥ hi_water both watermarks revert to their defaults.
Result: (lo_water, hi_water, keepalive_period in microseconds). -/
def specCacheParams (lo hi ka : Int) : Nat × Nat × Int :=
  let loB := if lo ≥ 0 then (lo * 1024).toNat else kDefaultLowWaterThreshold
  let hiB := if hi ≥ 0 then (hi * 1024).toNat else kDefaultHighWaterThreshold
  let kaUs := if ka ≥ 0 then ka * 1000000 else kDefaultKeepAliveIntervalUs
  if loB ≥ hiB then (kDefaultLowWaterThreshold, kDefaultHighWaterThreshold, kaUs)
  else (loB, hiB, kaUs)

/-- The engine state established by NuCachedSource2's constructor, in the case
where neither cache-params system property is set (the property store is
external to the engine); cacheConfig is the client's optional configuration
string, and the last step disables keep-alive for
disconnect-at-highwatermark-without-proxy. -/
def mkEngine (cacheConfig : Option String)
    (disconnectAtHighwatermark isProxyConfigured : Bool) : EngineState :=
  let s : EngineState := {
    mCache := []
    mCacheOffset := 0
    mLastAccessPos := 0
    mFinalStatus := OK
    mNumRetriesLeft := kMaxNumRetries
    mFetching := true
    mDisconnecting := false
    mSuspended := false
    mLastFetchTimeUs := -1
    mHighwaterThresholdBytes := kDefaultHighWaterThreshold
    mLowwaterThresholdBytes := kDefaultLowWaterThreshold
    mKeepAliveIntervalUs := kDefaultKeepAliveIntervalUs
    mDisconnectAtHighwatermark := disconnectAtHighwatermark
    mIsProxyConfigured := isProxyConfigured
    mQueryAndSetProxy := false }
  let s1 := match cacheConfig with
    | some cfg => updateCacheParamsFromString cfg s
    | none => s
  if s1.mDisconnectAtHighwatermark = true ∧ s1.mIsProxyConfigured = false then
    { s1 with mKeepAliveIntervalUs := 0 }
  else s1

/-- A fast-path example state: the engine fresh from construction, with two
cached pages holding bytes for offsets [100, 105). -/
def egFast : EngineState :=
  { mkEngine none false false with
    mCache := [[1, 2, 3], [4, 5]]
    mCacheOffset := 100 }

/-- A state in which the reader position lies before the cache window, as
readInternal produces just before forcing a prefetch restart. -/
def egWrap : EngineState :=
  { mkEngine none false false with
    mCache := [[1, 2], [3]]
    mCacheOffset := 10
    mLastAccessPos := 4
    mFetching := false }

/-- An idle engine whose reader is 1.5 MiB past the window start but still has
2.5 MiB (at least lo_water) cached ahead of it: 64 full pages for
offsets [0, 4 MiB). -/
def egAhead : EngineState :=
  { mkEngine none false false with
    mCache := List.replicate 64 (List.replicate 65536 0)
    mFetching := false
    mLastAccessPos := 1572864 }

/-- An idle engine whose reader is just past the 1 MiB gray area with only a
few bytes cached ahead of it, so the restart really evicts and refetches. -/
def egEvict : EngineState :=
  { mkEngine none false false with
    mCache := [List.replicate 1048576 0, List.replicate 10 0]
    mFetching := false
    mLastAccessPos := 1048580 }

/-- The engine as constructed with the client cache-config string "4/8/1":
lo_water 4 KiB, hi_water 8 KiB, keep-alive 1 s. -/
def egC1 : EngineState := mkEngine (some "4/8/1") false false

/-- A prefetcher activation at time 0 whose upstream read returns one full
64 KiB page. -/
def envFill : FetchEnv :=
  { nowUs := 0
    nowUs2 := 0
    reconnectErr := OK
    reconnectProxyOut := false
    readResult := 65536
    pageData := List.replicate 65536 0
    sourceIsHTTP := true }

/-- The same activation environment 2 s later, past the keep-alive deadline. -/
def envKeep : FetchEnv :=
  { envFill with
    nowUs := 2000000
    nowUs2 := 2000000 }

/-- The engine state egC1 written out: what the constructor produces from the
"4/8/1" configuration. -/
def egC1x : EngineState :=
  { mCache := []
    mCacheOffset := 0
    mLastAccessPos := 0
    mFinalStatus := 0
    mNumRetriesLeft := 10
    mFetching := true
    mDisconnecting := false
    mSuspended := false
    mLastFetchTimeUs := -1
    mHighwaterThresholdBytes := 8192
    mLowwaterThresholdBytes := 4096
    mKeepAliveIntervalUs := 1000000
    mDisconnectAtHighwatermark := false
    mIsProxyConfigured := false
    mQueryAndSetProxy := false }

/-- egC1 after its first FETCH activation: one full page cached, prefetching
stopped at the high watermark. -/
def egC1s1 : EngineState :=
  { egC1x with
    mCache := [List.replicate 65536 0]
    mFetching := false
    mLastFetchTimeUs := 0 }

/-- egC1s1 after the keep-alive activation at t = 2 s: a second full page. -/
def egC1s2 : EngineState :=
  { egC1s1 with
    mCache := [List.replicate 65536 0, List.replicate 65536 0]
    mLastFetchTimeUs := 2000000 }

/-- A terminally failed engine (EOF latched, no retries left) holding the
bytes of offsets [0, 3). -/
def egC5 : EngineState :=
  { mkEngine none false false with
    mCache := [[7, 8, 9]]
    mFinalStatus := ERROR_END_OF_STREAM
    mNumRetriesLeft := 0 }

namespace PageCache

theorem totalSize_nil : totalSize [] = 0 := rfl

theorem totalSize_cons (p : Page) (ps : List Page) :
    totalSize (p :: ps) = p.length + totalSize ps := by
  simp [totalSize]

theorem copyRest_zero (pages : List Page) : copyRest pages 0 = [] := by
  cases pages <;> simp [copyRest]

/-- copyRest returns exactly the first size bytes of the concatenation,
provided that many bytes exist. -/
theorem copyRest_eq_take (pages : List Page) (size : Nat)
    (h : size ≤ totalSize pages) :
    copyRest pages size = pages.flatten.take size := by
  induction pages generalizing size with
  | nil =>
    simp [totalSize] at h
    simp [copyRest, h]
  | cons p ps ih =>
    rw [totalSize_cons] at h
    by_cases h0 : size = 0
    · simp [copyRest, h0]
    · rw [copyRest, if_neg h0]
      rcases Nat.le_total size p.length with hle | hle
      · have hmin : min p.length size = size := by omega
        rw [hmin, Nat.sub_self, copyRest_zero]
        simp only [List.flatten_cons, List.take_append_eq_append_take]
        have h1 : size - p.length = 0 := by omega
        simp [h1]
      · have hmin : min p.length size = p.length := by omega
        rw [hmin, ih (size - p.length) (by omega)]
        simp only [List.flatten_cons, List.take_append_eq_append_take]
        congr 1
        rw [List.take_length, List.take_of_length_le hle]

/-- copyAux returns exactly the requested slice of the concatenation. -/
theorem copyAux_eq_slice (pages : List Page) (start size : Nat)
    (hsz : 0 < size) (h : start + size ≤ totalSize pages) :
    copyAux pages start size = (pages.flatten.drop start).take size := by
  induction pages generalizing start with
  | nil =>
    simp [totalSize] at h
    omega
  | cons p ps ih =>
    rw [totalSize_cons] at h
    rw [copyAux]
    simp only [List.flatten_cons, List.drop_append_eq_append_drop]
    by_cases hskip : p.length ≤ start
    · rw [if_pos hskip, ih (start - p.length) (by omega)]
      have h1 : p.drop start = [] := List.drop_eq_nil_of_le hskip
      simp [h1]
    · rw [if_neg hskip]
      have hdz : start - p.length = 0 := by omega
      have hdroplen : (p.drop start).length = p.length - start := by
        simp
      by_cases hfit : size ≤ p.length - start
      · rw [if_pos hfit, hdz]
        simp only [List.drop_zero, List.take_append_eq_append_take]
        have h2 : size - (p.drop start).length = 0 := by omega
        rw [hdroplen] at h2 ⊢
        rw [h2]
        simp
      · rw [if_neg hfit, hdz]
        simp only [List.drop_zero, List.take_append_eq_append_take]
        rw [copyRest_eq_take ps (size - (p.length - start)) (by omega)]
        congr 1
        · exact (List.take_of_length_le (by omega)).symm
        · congr 1
          omega

/-- PageCache::copy correctness: under its checked precondition
from + size ≤ mTotalSize, copy yields the slice [from, from+size) of the
cached bytes. -/
theorem copy_eq_slice (pages : List Page) (start size : Nat)
    (h : start + size ≤ totalSize pages) :
    copy pages start size = (pages.flatten.drop start).take size := by
  by_cases h0 : size = 0
  · simp [copy, h0]
  · rw [copy, if_neg h0]
    exact copyAux_eq_slice pages start size (by omega) h

/-- releaseFromStart never releases more than its budget. -/
theorem releaseFromStart_le_budget (pages : List Page) (maxBytes : Nat) :
    (releaseFromStart pages maxBytes).1 ≤ maxBytes := by
  induction pages generalizing maxBytes with
  | nil => simp [releaseFromStart]
  | cons p ps ih =>
    rw [releaseFromStart]
    by_cases h0 : maxBytes = 0
    · simp [h0]
    · rw [if_neg h0]
      by_cases hbr : maxBytes < p.length
      · simp [hbr]
      · rw [if_neg hbr]
        have := ih (maxBytes - p.length)
        simp only []
        omega

/-- releaseFromStart releases exactly the bytes it removes: the remaining
total plus the released count is the former total. -/
theorem releaseFromStart_total (pages : List Page) (maxBytes : Nat) :
    (releaseFromStart pages maxBytes).1
      + totalSize (releaseFromStart pages maxBytes).2 = totalSize pages := by
  induction pages generalizing maxBytes with
  | nil => simp [releaseFromStart, totalSize]
  | cons p ps ih =>
    rw [releaseFromStart]
    by_cases h0 : maxBytes = 0
    · simp [h0]
    · rw [if_neg h0]
      by_cases hbr : maxBytes < p.length
      · simp [hbr]
      · rw [if_neg hbr]
        have := ih (maxBytes - p.length)
        simp only [totalSize_cons]
        omega

/-- With the budget equal to the whole total, releaseFromStart releases every
byte (this is the CHECK_EQ in seekInternal_l). -/
theorem releaseFromStart_all (pages : List Page) :
    (releaseFromStart pages (totalSize pages)).1 = totalSize pages := by
  induction pages with
  | nil => simp [releaseFromStart, totalSize]
  | cons p ps ih =>
    rw [releaseFromStart, totalSize_cons]
    by_cases h0 : p.length + totalSize ps = 0
    · simp [h0]
    · rw [if_neg h0, if_neg (by omega)]
      simp only []
      have : p.length + totalSize ps - p.length = totalSize ps := by omega
      rw [this, ih]

/-- With a budget strictly above the whole total, every active page is
removed, empty pages included. -/
theorem releaseFromStart_drain (pages : List Page) (maxBytes : Nat)
    (h : totalSize pages < maxBytes) :
    releaseFromStart pages maxBytes = (totalSize pages, []) := by
  induction pages generalizing maxBytes with
  | nil => simp [releaseFromStart, totalSize]
  | cons p ps ih =>
    rw [totalSize_cons] at h
    rw [releaseFromStart, if_neg (by omega), if_neg (by omega)]
    rw [ih (maxBytes - p.length) (by omega)]
    simp [totalSize_cons]

end PageCache

theorem sizeT_eq_toNat (v : Int) (h0 : 0 ≤ v) (h1 : v < 2 ^ 64) :
    sizeT v = v.toNat := by
  unfold sizeT
  rw [Int.emod_eq_of_lt h0 h1]

theorem sizeT_neg (v : Int) (h0 : v < 0) (h1 : -(2 ^ 64) < v) :
    sizeT v = (2 ^ 64 + v).toNat := by
  unfold sizeT
  have : v % (2 ^ 64 : Int) = 2 ^ 64 + v := by omega
  rw [this]

/-- seekInternal_l inside the window (inclusive right end) only records the
access position. -/
theorem seekInternal_l_in (s : EngineState) (offset : Int)
    (h : offset ≥ s.mCacheOffset ∧ offset ≤ s.mCacheOffset + (s.total : Int)) :
    seekInternal_l offset s = (OK, { s with mLastAccessPos := offset }) := by
  unfold seekInternal_l
  dsimp only
  split
  next => rfl
  next hc => exact absurd h hc

/-- seekInternal_l outside the window: moves the window start to the target,
drains the cache, resets retries, resumes fetching. -/
theorem seekInternal_l_out (s : EngineState) (offset : Int)
    (h : ¬(offset ≥ s.mCacheOffset ∧ offset ≤ s.mCacheOffset + (s.total : Int))) :
    seekInternal_l offset s =
      (OK, { s with mLastAccessPos := offset,
                    mCacheOffset := offset,
                    mCache := (PageCache.releaseFromStart s.mCache s.total).2,
                    mNumRetriesLeft := kMaxNumRetries,
                    mFetching := true }) := by
  unfold seekInternal_l
  dsimp only
  split
  next hc => exact absurd hc h
  next => rfl

/-- After an out-of-window seek the remaining active pages hold no bytes. -/
theorem seek_drains (s : EngineState) :
    PageCache.totalSize (PageCache.releaseFromStart s.mCache s.total).2 = 0 := by
  have h1 := PageCache.releaseFromStart_all s.mCache
  have h2 := PageCache.releaseFromStart_total s.mCache (PageCache.totalSize s.mCache)
  simp only [EngineState.total]
  omega

/-- restartPrefetcherIfNecessary_l never grows the cache. -/
theorem restart_total_le (il f : Bool) (s : EngineState) :
    (restartPrefetcherIfNecessary_l il f s).total ≤ s.total := by
  unfold restartPrefetcherIfNecessary_l
  split
  · exact le_refl _
  · split
    · exact le_refl _
    · split
      · exact le_refl _
      · have h := PageCache.releaseFromStart_total s.mCache
          (if f = false then sizeT (s.mLastAccessPos - s.mCacheOffset) - kGrayArea
           else sizeT (s.mLastAccessPos - s.mCacheOffset))
        simp only [EngineState.total]
        omega

/-- restartPrefetcherIfNecessary_l only moves the window start forward. -/
theorem restart_cacheOffset_ge (il f : Bool) (s : EngineState) :
    s.mCacheOffset ≤ (restartPrefetcherIfNecessary_l il f s).mCacheOffset := by
  unfold restartPrefetcherIfNecessary_l
  split
  · exact le_refl _
  · split
    · exact le_refl _
    · split
      · exact le_refl _
      · simp only []
        omega

/-- restartPrefetcherIfNecessary_l keeps the window start nonnegative. -/
theorem restart_cacheOffset_nonneg (il f : Bool) (s : EngineState)
    (h : 0 ≤ s.mCacheOffset) :
    0 ≤ (restartPrefetcherIfNecessary_l il f s).mCacheOffset :=
  le_trans h (restart_cacheOffset_ge il f s)

/-- Fields restartPrefetcherIfNecessary_l never touches. -/
theorem restart_preserves (il f : Bool) (s : EngineState) :
    (restartPrefetcherIfNecessary_l il f s).mLastAccessPos = s.mLastAccessPos
    ∧ (restartPrefetcherIfNecessary_l il f s).mFinalStatus = s.mFinalStatus
    ∧ (restartPrefetcherIfNecessary_l il f s).mNumRetriesLeft = s.mNumRetriesLeft
    ∧ (restartPrefetcherIfNecessary_l il f s).mHighwaterThresholdBytes
        = s.mHighwaterThresholdBytes := by
  unfold restartPrefetcherIfNecessary_l
  split
  · exact ⟨rfl, rfl, rfl, rfl⟩
  · split
    · exact ⟨rfl, rfl, rfl, rfl⟩
    · split
      · exact ⟨rfl, rfl, rfl, rfl⟩
      · exact ⟨rfl, rfl, rfl, rfl⟩

/-- fetchRead either leaves the active pages alone or appends exactly the one
page the upstream read deposited. -/
theorem fetchRead_cache (env : FetchEnv) (s : EngineState) :
    (fetchRead env s).mCache = s.mCache
    ∨ (fetchRead env s).mCache = s.mCache ++ [env.pageData] := by
  unfold fetchRead
  split
  · left; rfl
  · split
    · split
      · left; rfl
      · left; rfl
    · right; rfl

/-- The reconnect bookkeeping does not touch the pages. -/
theorem fetchReconnectUpdate_cache (env : FetchEnv) (s : EngineState) :
    (fetchReconnectUpdate env s).mCache = s.mCache := by
  unfold fetchReconnectUpdate
  split <;> rfl

/-- The reconnect triage either keeps the pages or appends the read page. -/
theorem fetchTriage_cache (env : FetchEnv) (t : EngineState) :
    (fetchTriage env t).mCache = t.mCache
    ∨ (fetchTriage env t).mCache = t.mCache ++ [env.pageData] := by
  unfold fetchTriage
  split
  · exact Or.inl rfl
  · split
    · exact Or.inl rfl
    · split
      · exact Or.inl rfl
      · exact fetchRead_cache env t

/-- fetchInternal either leaves the active pages alone or appends exactly the
one page the upstream read deposited. -/
theorem fetchInternal_cache (env : FetchEnv) (s : EngineState) :
    (fetchInternal env s).mCache = s.mCache
    ∨ (fetchInternal env s).mCache = s.mCache ++ [env.pageData] := by
  unfold fetchInternal
  dsimp only
  split
  · split
    · have h := fetchTriage_cache env (fetchReconnectUpdate env
        { s with mNumRetriesLeft := s.mNumRetriesLeft - 1 })
      rw [fetchReconnectUpdate_cache] at h
      exact h
    · exact fetchRead_cache env { s with mNumRetriesLeft := s.mNumRetriesLeft - 1 }
  · exact fetchRead_cache env s

/-- One fetchInternal grows the cache by at most the bytes the upstream
deposited in the page. -/
theorem fetchInternal_total_le (env : FetchEnv) (s : EngineState) :
    (fetchInternal env s).total ≤ s.total + env.pageData.length := by
  rcases fetchInternal_cache env s with h | h
  · simp only [EngineState.total, h]
    exact Nat.le_add_right _ _
  · simp only [EngineState.total, h, PageCache.totalSize, List.map_append,
      List.sum_append, List.map_cons, List.map_nil, List.sum_cons, List.sum_nil]
    omega

theorem onFetchStep1_cache (s : EngineState) :
    (onFetchStep1 s).mCache = s.mCache := by
  unfold onFetchStep1
  split <;> rfl

theorem onFetchStep2_cache (s : EngineState) :
    (onFetchStep2 s).mCache = s.mCache := by
  unfold onFetchStep2
  split <;> rfl

theorem onFetchEpilogue_cache (s : EngineState) :
    (onFetchEpilogue s).mCache = s.mCache := by
  unfold onFetchEpilogue
  split <;> rfl

theorem onFetchFetchPhase_cache (env : FetchEnv) (t : EngineState) :
    (onFetchFetchPhase env t).mCache = (fetchInternal env t).mCache := by
  unfold onFetchFetchPhase
  dsimp only
  split
  · split <;> rfl
  · rfl

/-- A whole prefetcher activation grows the cache by at most the one page the
upstream read deposited. -/
theorem onFetch_total_le (env : FetchEnv) (s : EngineState) :
    (onFetch env s).total ≤ s.total + env.pageData.length := by
  have h12 : (onFetchStep2 (onFetchStep1 s)).mCache = s.mCache := by
    rw [onFetchStep2_cache, onFetchStep1_cache]
  have h12t : (onFetchStep2 (onFetchStep1 s)).total = s.total := by
    show PageCache.totalSize (onFetchStep2 (onFetchStep1 s)).mCache
      = PageCache.totalSize s.mCache
    rw [h12]
  unfold onFetch
  dsimp only
  have hepi : ∀ t : EngineState, (onFetchEpilogue t).total = t.total := by
    intro t
    show PageCache.totalSize (onFetchEpilogue t).mCache
      = PageCache.totalSize t.mCache
    rw [onFetchEpilogue_cache]
  rw [hepi]
  split
  · have hph : (onFetchFetchPhase env (onFetchStep2 (onFetchStep1 s))).total
        = (fetchInternal env (onFetchStep2 (onFetchStep1 s))).total := by
      show PageCache.totalSize _ = PageCache.totalSize _
      rw [onFetchFetchPhase_cache]
    rw [hph]
    have h := fetchInternal_total_le env (onFetchStep2 (onFetchStep1 s))
    rw [h12t] at h
    exact h
  · have h := restart_total_le false false (onFetchStep2 (onFetchStep1 s))
    rw [h12t] at h
    omega

/-- C2: a readAt call made while not disconnecting whose request range is
entirely inside the cache window returns len, delivers exactly the cached
bytes of [offset, offset+len), records last_access_pos = offset+len and
changes nothing else. -/
theorem c2_readAt_fastpath (s : EngineState) (offset : Int) (size : Nat)
    (hdc : s.mDisconnecting = false)
    (hlo : s.mCacheOffset ≤ offset)
    (hhi : offset + (size : Int) ≤ s.mCacheOffset + (s.total : Int))
    (htot : (s.total : Int) < 2 ^ 64) :
    readAt s offset size
      = .done (size : Int) { s with mLastAccessPos := offset + (size : Int) }
          ((s.mCache.flatten.drop (offset - s.mCacheOffset).toNat).take size) := by
  have htot2 : (PageCache.totalSize s.mCache : Int) < 2 ^ 64 := htot
  have hhi2 : offset + (size : Int)
      ≤ s.mCacheOffset + (PageCache.totalSize s.mCache : Int) := hhi
  unfold readAt
  rw [hdc]
  rw [if_neg (by simp), if_pos ⟨hlo, hhi⟩]
  have h1 : sizeT (offset - s.mCacheOffset) = (offset - s.mCacheOffset).toNat :=
    sizeT_eq_toNat _ (by omega) (by omega)
  have h2 : (offset - s.mCacheOffset).toNat + size
      ≤ PageCache.totalSize s.mCache := by omega
  rw [h1, PageCache.copy_eq_slice _ _ _ h2]

/-- C2 witness: a concrete fast-path read of 3 bytes at offset 101 from the
window [100, 105). -/
theorem c2_readAt_fastpath_witness :
    egFast.mDisconnecting = false
    ∧ egFast.mCacheOffset ≤ 101
    ∧ (101 : Int) + ((3 : Nat) : Int) ≤ egFast.mCacheOffset + (egFast.total : Int)
    ∧ (egFast.total : Int) < 2 ^ 64
    ∧ readAt egFast 101 3
      = .done ((3 : Nat) : Int)
          { egFast with mLastAccessPos := 101 + ((3 : Nat) : Int) }
          ((egFast.mCache.flatten.drop ((101 : Int) - egFast.mCacheOffset).toNat).take 3) :=
  ⟨by decide, by decide, by decide, by decide,
   c2_readAt_fastpath egFast 101 3 (by decide) (by decide) (by decide) (by decide)⟩

/-- C3: seekInternal_l records last_access_pos = offset and returns OK; inside
the window (inclusive upper end) it changes nothing else, otherwise it moves
the window start to offset, drains the cache to total 0, resets the retry
budget and turns fetching on. -/
theorem c3_seekInternal_spec (s : EngineState) (offset : Int) :
    (seekInternal_l offset s).1 = OK
    ∧ (seekInternal_l offset s).2.mLastAccessPos = offset
    ∧ (offset ≥ s.mCacheOffset ∧ offset ≤ s.mCacheOffset + (s.total : Int) →
        (seekInternal_l offset s).2 = { s with mLastAccessPos := offset })
    ∧ (¬(offset ≥ s.mCacheOffset ∧ offset ≤ s.mCacheOffset + (s.total : Int)) →
        (seekInternal_l offset s).2.mCacheOffset = offset
        ∧ (seekInternal_l offset s).2.total = 0
        ∧ (seekInternal_l offset s).2.mNumRetriesLeft = kMaxNumRetries
        ∧ (seekInternal_l offset s).2.mFetching = true) := by
  by_cases h : offset ≥ s.mCacheOffset ∧ offset ≤ s.mCacheOffset + (s.total : Int)
  · rw [seekInternal_l_in s offset h]
    exact ⟨rfl, rfl, fun _ => rfl, fun hc => absurd h hc⟩
  · rw [seekInternal_l_out s offset h]
    exact ⟨rfl, rfl, fun hc => absurd hc h, fun _ => ⟨rfl, seek_drains s, rfl, rfl⟩⟩

/-- C3 witness: seeking to 5 with an empty window at 0 resets the window. -/
theorem c3_seekInternal_witness :
    ¬((5 : Int) ≥ (mkEngine none false false).mCacheOffset
      ∧ (5 : Int) ≤ (mkEngine none false false).mCacheOffset
          + ((mkEngine none false false).total : Int))
    ∧ (seekInternal_l 5 (mkEngine none false false)).2.mCacheOffset = 5
    ∧ (seekInternal_l 5 (mkEngine none false false)).2.total = 0
    ∧ (seekInternal_l 5 (mkEngine none false false)).2.mFetching = true :=
  ⟨by decide,
   ((c3_seekInternal_spec (mkEngine none false false) 5).2.2.2 (by decide)).1,
   ((c3_seekInternal_spec (mkEngine none false false) 5).2.2.2 (by decide)).2.1,
   ((c3_seekInternal_spec (mkEngine none false false) 5).2.2.2 (by decide)).2.2.2⟩

/-- A seek whose target is exactly the current window start and access
position is a no-op. -/
theorem seek_again (t : EngineState) (x : Int)
    (hc : t.mCacheOffset = x) (hl : t.mLastAccessPos = x) :
    (seekInternal_l x t).2 = t := by
  rw [seekInternal_l_in t x ⟨by omega, by omega⟩]
  rw [← hl]

/-- C9: running seekInternal_l twice at the same offset leaves the engine in
exactly the state a single run produces. -/
theorem c9_seek_idempotent (s : EngineState) (x : Int) :
    (seekInternal_l x (seekInternal_l x s).2).2 = (seekInternal_l x s).2 := by
  by_cases h : x ≥ s.mCacheOffset ∧ x ≤ s.mCacheOffset + (s.total : Int)
  · rw [seekInternal_l_in s x h]
    rw [seekInternal_l_in { s with mLastAccessPos := x } x h]
  · rw [seekInternal_l_out s x h]
    exact seek_again _ x rfl rfl

/-- C4 counterexample: with an upstream whose flags lack kIsHTTPBasedSource the
whole body of disconnect() is skipped, so disconnecting stays false and a
blocked reader is not released — the claim's "for every upstream source" is
false. -/
theorem c4_counterexample :
    (disconnect false (mkEngine none false false)).mDisconnecting = false := by
  decide

/-- C4 amended: when the upstream is HTTP-based, disconnect() sets
disconnecting (and nothing else), is idempotent, and makes any readAt return
EOF; with a non-HTTP upstream it leaves the engine unchanged. -/
theorem c4_disconnect_spec (s : EngineState) :
    disconnect true s = { s with mDisconnecting := true }
    ∧ disconnect true (disconnect true s) = disconnect true s
    ∧ (∀ (offset : Int) (size : Nat),
        readAt (disconnect true s) offset size
          = .done ERROR_END_OF_STREAM (disconnect true s) [])
    ∧ disconnect false s = s :=
  ⟨rfl, rfl, fun _ _ => rfl, rfl⟩

/-- C10: with the prefetcher idle and not terminally failed, a forced restart
taken while last_access_pos < cache_offset computes its eviction budget by
unsigned wrap-around to 2^64 - (cache_offset - last_access_pos), so every
active page is released and cache_offset advances by the entire former
total_size. -/
theorem c10_force_wraparound (s : EngineState)
    (hf : s.mFetching = false)
    (hterm : ¬(s.mFinalStatus ≠ OK ∧ s.mNumRetriesLeft = 0))
    (hlt : s.mLastAccessPos < s.mCacheOffset)
    (hbound : (s.total : Int) + (s.mCacheOffset - s.mLastAccessPos) < 2 ^ 64) :
    sizeT (s.mLastAccessPos - s.mCacheOffset)
        = ((2 : Int) ^ 64 - (s.mCacheOffset - s.mLastAccessPos)).toNat
    ∧ restartPrefetcherIfNecessary_l false true s
        = { s with mCache := [],
                   mCacheOffset := s.mCacheOffset + (s.total : Int),
                   mFetching := true } := by
  have hw : sizeT (s.mLastAccessPos - s.mCacheOffset)
      = ((2 : Int) ^ 64 - (s.mCacheOffset - s.mLastAccessPos)).toNat := by
    rw [sizeT_neg _ (by omega) (by omega)]
    congr 1
    omega
  have hbound2 : (PageCache.totalSize s.mCache : Int)
      + (s.mCacheOffset - s.mLastAccessPos) < 2 ^ 64 := hbound
  have hdrain : PageCache.releaseFromStart s.mCache
      (sizeT (s.mLastAccessPos - s.mCacheOffset))
      = (PageCache.totalSize s.mCache, []) := by
    apply PageCache.releaseFromStart_drain
    rw [hw]
    omega
  refine ⟨hw, ?_⟩
  unfold restartPrefetcherIfNecessary_l
  rw [if_neg (by rw [hf]; simp only [Bool.false_eq_true, false_or]; exact hterm)]
  rw [if_neg (by simp)]
  rw [if_neg (by simp)]
  dsimp only
  rw [if_neg (by simp), hdrain]
  rfl

/-- C10 witness: reader at 4, window starting at 10 with 3 cached bytes: the
forced restart drains the whole cache and moves the window start to 13. -/
theorem c10_force_wraparound_witness :
    egWrap.mFetching = false
    ∧ egWrap.mLastAccessPos < egWrap.mCacheOffset
    ∧ (sizeT (egWrap.mLastAccessPos - egWrap.mCacheOffset)
        = ((2 : Int) ^ 64 - (egWrap.mCacheOffset - egWrap.mLastAccessPos)).toNat
      ∧ restartPrefetcherIfNecessary_l false true egWrap
        = { egWrap with mCache := [],
                        mCacheOffset := egWrap.mCacheOffset + (egWrap.total : Int),
                        mFetching := true }) :=
  ⟨by decide, by decide,
   c10_force_wraparound egWrap (by decide) (by decide) (by decide) (by decide)⟩

/-- C6 counterexample: in egAhead the reader is 1.5 MiB past the window start
(beyond the 1 MiB gray area), yet because at least lo_water bytes remain ahead
of the reader the restart returns without evicting anything and without
setting fetching — refuting the claim's assertion that fetching becomes true
whenever last_access_pos - cache_offset is at least 1 MiB. -/
theorem c6_counterexample :
    egAhead.mFetching = false
    ∧ ¬(egAhead.mFinalStatus ≠ OK ∧ egAhead.mNumRetriesLeft = 0)
    ∧ egAhead.mLastAccessPos - egAhead.mCacheOffset ≥ (kGrayArea : Int)
    ∧ restartPrefetcherIfNecessary_l false false egAhead = egAhead
    ∧ (restartPrefetcherIfNecessary_l false false egAhead).mFetching ≠ true := by
  have htot : egAhead.total = 4194304 := by
    show PageCache.totalSize (List.replicate 64 (List.replicate 65536 0)) = 4194304
    rw [PageCache.totalSize, List.map_replicate, List.length_replicate,
      List.sum_replicate, smul_eq_mul]
  have heq : restartPrefetcherIfNecessary_l false false egAhead = egAhead := by
    unfold restartPrefetcherIfNecessary_l
    rw [if_neg (by decide)]
    rw [if_pos ⟨rfl, rfl, by rw [htot]; decide⟩]
  exact ⟨by decide, by decide, by decide, heq, by rw [heq]; decide⟩

/-- C6 corrected: with the prefetcher idle, not terminally failed, and the
reader inside the window, the restart is a no-op not only when the reader is
less than 1 MiB past the window start but also whenever at least lo_water
bytes remain cached ahead of the reader; only when both tests pass does it
release at most last_access_pos - cache_offset - 1 MiB bytes from the front,
advance cache_offset by exactly the released amount (cache_offset + total_size
unchanged), and set fetching. -/
theorem c6_restart_spec (s : EngineState)
    (hf : s.mFetching = false)
    (hterm : ¬(s.mFinalStatus ≠ OK ∧ s.mNumRetriesLeft = 0))
    (hco : 0 ≤ s.mCacheOffset)
    (hla : s.mCacheOffset ≤ s.mLastAccessPos)
    (hwin : s.mLastAccessPos ≤ s.mCacheOffset + (s.total : Int))
    (htot : (s.total : Int) < 2 ^ 64) :
    (s.mCacheOffset + (s.total : Int) - s.mLastAccessPos
          ≥ (s.mLowwaterThresholdBytes : Int) →
        restartPrefetcherIfNecessary_l false false s = s)
    ∧ (s.mLastAccessPos - s.mCacheOffset < (kGrayArea : Int) →
        restartPrefetcherIfNecessary_l false false s = s)
    ∧ (s.mCacheOffset + (s.total : Int) - s.mLastAccessPos
          < (s.mLowwaterThresholdBytes : Int) →
       s.mLastAccessPos - s.mCacheOffset ≥ (kGrayArea : Int) →
        (restartPrefetcherIfNecessary_l false false s).mFetching = true
        ∧ (restartPrefetcherIfNecessary_l false false s).mCacheOffset
              + ((restartPrefetcherIfNecessary_l false false s).total : Int)
            = s.mCacheOffset + (s.total : Int)
        ∧ s.mCacheOffset ≤ (restartPrefetcherIfNecessary_l false false s).mCacheOffset
        ∧ (restartPrefetcherIfNecessary_l false false s).mCacheOffset
            ≤ s.mLastAccessPos - (kGrayArea : Int)
        ∧ (restartPrefetcherIfNecessary_l false false s).mLastAccessPos
            = s.mLastAccessPos) := by
  have hg1 : ¬(s.mFetching = true ∨ (s.mFinalStatus ≠ OK ∧ s.mNumRetriesLeft = 0)) := by
    rw [hf]
    simp only [Bool.false_eq_true, false_or]
    exact hterm
  have hs1 : sizeT (s.mCacheOffset + (s.total : Int) - s.mLastAccessPos)
      = (s.mCacheOffset + (s.total : Int) - s.mLastAccessPos).toNat :=
    sizeT_eq_toNat _ (by omega) (by omega)
  have hs2 : sizeT (s.mLastAccessPos - s.mCacheOffset)
      = (s.mLastAccessPos - s.mCacheOffset).toNat :=
    sizeT_eq_toNat _ (by omega) (by omega)
  refine ⟨?_, ?_, ?_⟩
  · intro hlow
    unfold restartPrefetcherIfNecessary_l
    rw [if_neg hg1, if_pos ⟨rfl, rfl, by rw [hs1]; omega⟩]
  · intro hgray
    by_cases hlow : sizeT (s.mCacheOffset + (s.total : Int) - s.mLastAccessPos)
        ≥ s.mLowwaterThresholdBytes
    · unfold restartPrefetcherIfNecessary_l
      rw [if_neg hg1, if_pos ⟨rfl, rfl, hlow⟩]
    · unfold restartPrefetcherIfNecessary_l
      rw [if_neg hg1, if_neg (by intro hc; exact hlow hc.2.2)]
      rw [if_pos ⟨rfl, by rw [hs2]; omega⟩]
  · intro hlow hgray
    have hc2 : ¬((false = false) ∧ (false = false)
        ∧ sizeT (s.mCacheOffset + (s.total : Int) - s.mLastAccessPos)
            ≥ s.mLowwaterThresholdBytes) := by
      intro hc
      have := hc.2.2
      rw [hs1] at this
      omega
    have hc3 : ¬((false = false)
        ∧ sizeT (s.mLastAccessPos - s.mCacheOffset) < kGrayArea) := by
      intro hc
      have := hc.2
      rw [hs2] at this
      omega
    have hres : restartPrefetcherIfNecessary_l false false s
        = { s with
            mCache := (PageCache.releaseFromStart s.mCache
              (sizeT (s.mLastAccessPos - s.mCacheOffset) - kGrayArea)).2
            mCacheOffset := s.mCacheOffset + ((PageCache.releaseFromStart s.mCache
              (sizeT (s.mLastAccessPos - s.mCacheOffset) - kGrayArea)).1 : Int)
            mFetching := true } := by
      unfold restartPrefetcherIfNecessary_l
      rw [if_neg hg1, if_neg hc2, if_neg hc3]
      dsimp only
      rw [if_pos rfl]
    have hrel1 := PageCache.releaseFromStart_le_budget s.mCache
      (sizeT (s.mLastAccessPos - s.mCacheOffset) - kGrayArea)
    have hrel2 := PageCache.releaseFromStart_total s.mCache
      (sizeT (s.mLastAccessPos - s.mCacheOffset) - kGrayArea)
    rw [hres]
    refine ⟨rfl, ?_, ?_, ?_, rfl⟩
    · show s.mCacheOffset + ((PageCache.releaseFromStart s.mCache
          (sizeT (s.mLastAccessPos - s.mCacheOffset) - kGrayArea)).1 : Int)
        + ((PageCache.totalSize (PageCache.releaseFromStart s.mCache
          (sizeT (s.mLastAccessPos - s.mCacheOffset) - kGrayArea)).2 : Nat) : Int)
        = s.mCacheOffset + (s.total : Int)
      have hst : s.total = PageCache.totalSize s.mCache := rfl
      omega
    · show s.mCacheOffset ≤ s.mCacheOffset + ((PageCache.releaseFromStart s.mCache
          (sizeT (s.mLastAccessPos - s.mCacheOffset) - kGrayArea)).1 : Int)
      omega
    · show s.mCacheOffset + ((PageCache.releaseFromStart s.mCache
          (sizeT (s.mLastAccessPos - s.mCacheOffset) - kGrayArea)).1 : Int)
        ≤ s.mLastAccessPos - (kGrayArea : Int)
      rw [hs2] at hrel1 ⊢
      omega

/-- C6 witness: in egEvict the low-water and gray-area tests both pass, so the
restart turns fetching back on. -/
theorem c6_restart_spec_witness :
    egEvict.mCacheOffset + (egEvict.total : Int) - egEvict.mLastAccessPos
        < (egEvict.mLowwaterThresholdBytes : Int)
    ∧ egEvict.mLastAccessPos - egEvict.mCacheOffset ≥ (kGrayArea : Int)
    ∧ (restartPrefetcherIfNecessary_l false false egEvict).mFetching = true := by
  have htotE : egEvict.total = 1048586 := by
    show PageCache.totalSize [List.replicate 1048576 0, List.replicate 10 0]
      = 1048586
    rw [PageCache.totalSize]
    simp only [List.map_cons, List.map_nil, List.length_replicate,
      List.sum_cons, List.sum_nil]
    norm_num
  refine ⟨by rw [htotE]; decide, by decide, ?_⟩
  exact ((c6_restart_spec egEvict (by decide) (by decide) (by decide) (by decide)
    (by rw [htotE]; decide) (by rw [htotE]; decide)).2.2
    (by rw [htotE]; decide) (by decide)).1

/-- C1 counterexample: starting from a freshly constructed engine configured
with "4/8/1" (hi_water 8 KiB, keep-alive 1 s), one fetch appends a full
64 KiB page and stops prefetching at the high watermark; a later keep-alive
activation, taken while fetching is false, appends another full page, raising
total_size to 128 KiB, which exceeds hi_water + kPageSize = 72 KiB — the
claimed invariant fails under keep-alive activations. -/
theorem c1_counterexample :
    envFill.pageData.length ≤ kPageSize
    ∧ envKeep.pageData.length ≤ kPageSize
    ∧ egC1.mFetching = true
    ∧ (onFetch envFill egC1).mFetching = false
    ∧ (onFetch envKeep (onFetch envFill egC1)).total
        > (onFetch envKeep (onFetch envFill egC1)).mHighwaterThresholdBytes
          + kPageSize := by
  have hpl : (List.replicate 65536 (0 : Nat)).length ≤ kPageSize := by
    rw [List.length_replicate]
    decide
  have htot1 : PageCache.totalSize [List.replicate 65536 (0 : Nat)] = 65536 := by
    rw [PageCache.totalSize]
    simp only [List.map_cons, List.map_nil, List.length_replicate,
      List.sum_cons, List.sum_nil, Nat.add_zero]
  have htot2 : PageCache.totalSize
      [List.replicate 65536 (0 : Nat), List.replicate 65536 (0 : Nat)]
      = 131072 := by
    rw [PageCache.totalSize]
    simp only [List.map_cons, List.map_nil, List.length_replicate,
      List.sum_cons, List.sum_nil, Nat.add_zero]
  have h0 : egC1 = egC1x := by decide
  have hC1 : fetchInternal envFill egC1x
      = { egC1x with mCache := [List.replicate 65536 0] } := rfl
  have hph1 : onFetchFetchPhase envFill egC1x = egC1s1 := by
    unfold onFetchFetchPhase
    dsimp only
    rw [hC1]
    split
    next h =>
      rw [if_neg (by decide)]
      rfl
    next h =>
      exact absurd ⟨rfl, by
        show PageCache.totalSize [List.replicate 65536 (0 : Nat)] ≥ 8192
        rw [htot1]
        decide⟩ h
  have h1 : onFetch envFill egC1 = egC1s1 := by
    rw [h0]
    unfold onFetch
    dsimp only
    have hA : onFetchStep1 egC1x = egC1x := by
      unfold onFetchStep1
      rw [if_neg (by decide)]
    have hB : onFetchStep2 egC1x = egC1x := by
      unfold onFetchStep2
      rw [if_neg (by decide)]
    rw [hA, hB]
    have hcond : egC1x.mFetching = true
        ∨ (egC1x.mFetching = false ∧ egC1x.mFinalStatus = OK
            ∧ egC1x.mKeepAliveIntervalUs > 0
            ∧ envFill.nowUs ≥ egC1x.mLastFetchTimeUs + egC1x.mKeepAliveIntervalUs) :=
      Or.inl rfl
    rw [if_pos hcond, hph1]
    unfold onFetchEpilogue
    rw [if_neg (by decide)]
  have hC2 : fetchInternal envKeep egC1s1
      = { egC1s1 with
          mCache := [List.replicate 65536 0, List.replicate 65536 0] } := rfl
  have hph2 : onFetchFetchPhase envKeep egC1s1 = egC1s2 := by
    unfold onFetchFetchPhase
    dsimp only
    rw [hC2]
    split
    next h => exact absurd h.1 (by decide)
    next h => rfl
  have h2 : onFetch envKeep egC1s1 = egC1s2 := by
    unfold onFetch
    dsimp only
    have hA : onFetchStep1 egC1s1 = egC1s1 := by
      unfold onFetchStep1
      rw [if_neg (by decide)]
    have hB : onFetchStep2 egC1s1 = egC1s1 := by
      unfold onFetchStep2
      rw [if_neg (by decide)]
    rw [hA, hB]
    have hcond : egC1s1.mFetching = true
        ∨ (egC1s1.mFetching = false ∧ egC1s1.mFinalStatus = OK
            ∧ egC1s1.mKeepAliveIntervalUs > 0
            ∧ envKeep.nowUs ≥ egC1s1.mLastFetchTimeUs + egC1s1.mKeepAliveIntervalUs) :=
      Or.inr ⟨rfl, rfl, by decide, by decide⟩
    rw [if_pos hcond, hph2]
    unfold onFetchEpilogue
    rw [if_neg (by decide)]
  refine ⟨hpl, hpl, by decide, ?_, ?_⟩
  · rw [h1]
    rfl
  · rw [h1, h2]
    show PageCache.totalSize
        [List.replicate 65536 (0 : Nat), List.replicate 65536 (0 : Nat)]
      > egC1s2.mHighwaterThresholdBytes + kPageSize
    rw [htot2]
    decide

/-- C1 corrected: a FETCH activation taken while fetching is true and
total_size < hi_water appends at most one page of at most kPageSize bytes, so
total_size stays below hi_water + kPageSize; keep-alive activations taken
while fetching is false are outside the bound and can push total_size past
hi_water + kPageSize, as the counterexample shows. -/
theorem c1_fetch_watermark_bound (s : EngineState) (env : FetchEnv)
    (hf : s.mFetching = true)
    (hlt : s.total < s.mHighwaterThresholdBytes)
    (hpage : env.pageData.length ≤ kPageSize) :
    (onFetch env s).total < s.mHighwaterThresholdBytes + kPageSize := by
  have h := onFetch_total_le env s
  omega

/-- C1 witness: the very first activation of the configured engine. -/
theorem c1_fetch_watermark_bound_witness :
    egC1.mFetching = true
    ∧ egC1.total < egC1.mHighwaterThresholdBytes
    ∧ envFill.pageData.length ≤ kPageSize
    ∧ (onFetch envFill egC1).total < egC1.mHighwaterThresholdBytes + kPageSize :=
  ⟨by decide, by decide,
   by show (List.replicate 65536 (0 : Nat)).length ≤ kPageSize
      rw [List.length_replicate]
      decide,
   c1_fetch_watermark_bound egC1 envFill (by decide) (by decide)
     (by show (List.replicate 65536 (0 : Nat)).length ≤ kPageSize
         rw [List.length_replicate]
         decide)⟩

/-- After readInternal's restart/seek phase the window start is nonnegative
and never exceeds the requested offset. -/
theorem readInternalMid_cacheOffset (s : EngineState) (offset : Int)
    (hco : 0 ≤ s.mCacheOffset) (ho : 0 ≤ offset) (hofflt : offset < 2 ^ 64) :
    0 ≤ (readInternalMid s offset).mCacheOffset
    ∧ (readInternalMid s offset).mCacheOffset ≤ offset := by
  have hkp : (0 : Int) < kPadding := by decide
  unfold readInternalMid
  dsimp only
  set t := (if s.mFetching = false then
      restartPrefetcherIfNecessary_l false true { s with mLastAccessPos := offset }
    else s) with ht
  set so := (if offset > kPadding then offset - kPadding else 0) with hso
  have ht0 : 0 ≤ t.mCacheOffset := by
    rw [ht]
    split
    · exact restart_cacheOffset_nonneg _ _ _ hco
    · exact hco
  have hso0 : 0 ≤ so := by
    rw [hso]
    split <;> omega
  have hsole : so ≤ offset := by
    rw [hso]
    split <;> omega
  split
  next hout =>
    by_cases hseek : so ≥ t.mCacheOffset ∧ so ≤ t.mCacheOffset + (t.total : Int)
    · rw [seekInternal_l_in t so hseek]
      exact ⟨ht0, le_trans hseek.1 hsole⟩
    · rw [seekInternal_l_out t so hseek]
      exact ⟨hso0, hsole⟩
  next hin =>
    exact ⟨ht0, by omega⟩

/-- C5: readInternal returns a stored error status only when retries are
exhausted (final status non-OK with zero retries left) and the requested
offset lies at or past the end of the (possibly just re-seeked) window; an
exhausted request still inside the window instead returns the clamped count
min(total_size - delta, len) together with exactly those cached bytes; and a
non-exhausted request that is not fully cached returns the retryable -EAGAIN
rather than the stored status. -/
theorem c5_readInternal_errors (s : EngineState) (offset : Int) (size : Nat)
    (hco : 0 ≤ s.mCacheOffset) (ho : 0 ≤ offset) (hofflt : offset < 2 ^ 64) :
    ((readInternal s offset size).1 < 0
        ∧ (readInternal s offset size).1 ≠ -EAGAIN →
        (readInternalMid s offset).mFinalStatus ≠ OK
        ∧ (readInternalMid s offset).mNumRetriesLeft = 0
        ∧ sizeT (offset - (readInternalMid s offset).mCacheOffset)
            ≥ (readInternalMid s offset).total
        ∧ offset ≥ (readInternalMid s offset).mCacheOffset
            + ((readInternalMid s offset).total : Int)
        ∧ (readInternal s offset size).1
            = (readInternalMid s offset).mFinalStatus)
    ∧ ((readInternalMid s offset).mFinalStatus ≠ OK
        ∧ (readInternalMid s offset).mNumRetriesLeft = 0
        ∧ sizeT (offset - (readInternalMid s offset).mCacheOffset)
            < (readInternalMid s offset).total →
        (readInternal s offset size).1
          = ((min ((readInternalMid s offset).total
              - sizeT (offset - (readInternalMid s offset).mCacheOffset))
              size : Nat) : Int)
        ∧ (readInternal s offset size).2.2
          = ((readInternalMid s offset).mCache.flatten.drop
              (sizeT (offset - (readInternalMid s offset).mCacheOffset))).take
              (min ((readInternalMid s offset).total
                - sizeT (offset - (readInternalMid s offset).mCacheOffset)) size))
    ∧ (¬((readInternalMid s offset).mFinalStatus ≠ OK
          ∧ (readInternalMid s offset).mNumRetriesLeft = 0)
        ∧ offset + (size : Int) > (readInternalMid s offset).mCacheOffset
            + ((readInternalMid s offset).total : Int) →
        (readInternal s offset size).1 = -EAGAIN) := by
  obtain ⟨hmid0, hmidle⟩ := readInternalMid_cacheOffset s offset hco ho hofflt
  have hdelta : sizeT (offset - (readInternalMid s offset).mCacheOffset)
      = (offset - (readInternalMid s offset).mCacheOffset).toNat :=
    sizeT_eq_toNat _ (by omega) (by omega)
  have hst : (readInternalMid s offset).total
      = PageCache.totalSize (readInternalMid s offset).mCache := rfl
  unfold readInternal
  dsimp only
  split
  next hex =>
    split
    next hge =>
      refine ⟨fun h => ⟨hex.1, hex.2, hge, ?_, rfl⟩,
        fun hc => absurd hge (by omega),
        fun hc => absurd hex hc.1⟩
      rw [hdelta] at hge
      omega
    next hlt2 =>
      refine ⟨fun h => absurd h.1 (by omega),
        fun hc => ⟨rfl, ?_⟩,
        fun hc => absurd hex hc.1⟩
      apply PageCache.copy_eq_slice
      omega
  next hnex =>
    split
    next hcached =>
      exact ⟨fun h => absurd h.1 (by omega),
        fun hc => absurd ⟨hc.1, hc.2.1⟩ hnex,
        fun hc => absurd hcached (by omega)⟩
    next hncached =>
      exact ⟨fun h => absurd rfl h.2,
        fun hc => absurd ⟨hc.1, hc.2.1⟩ hnex,
        fun hc => rfl⟩

/-- C5 witness: reading 4 bytes at offset 5 from egC5: the 256 KiB-padded
seek lands inside the window, the request stays past the end, and the latched
EOF status is returned. -/
theorem c5_readInternal_errors_witness :
    (0 : Int) ≤ egC5.mCacheOffset ∧ (0 : Int) ≤ 5 ∧ (5 : Int) < 2 ^ 64
    ∧ (readInternal egC5 5 4).1 < 0
    ∧ (readInternal egC5 5 4).1 = (readInternalMid egC5 5).mFinalStatus := by
  have h := c5_readInternal_errors egC5 5 4 (by decide) (by decide) (by decide)
  refine ⟨by decide, by decide, by decide, by decide, ?_⟩
  exact (h.1 ⟨by decide, by decide⟩).2.2.2.2

/-- C8 counterexample: sscanf converts only two tokens of the string "5/7"
(the keep-alive token is absent), so updateCacheParamsFromString returns
without touching any parameter: lo_water remains the 2 MiB default instead of
becoming the 5 * 1024 bytes the claim prescribes for a present nonnegative lo
token. -/
theorem c8_counterexample :
    scanCacheParams "5/7" = none
    ∧ (updateCacheParamsFromString "5/7"
        (mkEngine none false false)).mLowwaterThresholdBytes
      = kDefaultLowWaterThreshold
    ∧ kDefaultLowWaterThreshold ≠ 5 * 1024 := by
  exact ⟨by decide, by decide, by decide⟩

/-- C8 corrected: a configuration string in which sscanf converts fewer than
three tokens leaves every cache parameter unchanged (it does not apply
defaults for absent tokens); when all three tokens convert, the parameters are
set exactly as the spec's table prescribes — a token ≥ 0 sets its parameter,
a negative token yields the default, and if the resulting lo_water ≥ hi_water
both watermarks revert to their defaults. -/
theorem c8_updateCacheParams_spec (cfg : String) (s : EngineState) :
    (scanCacheParams cfg = none → updateCacheParamsFromString cfg s = s)
    ∧ (∀ lo hi ka : Int, scanCacheParams cfg = some (lo, hi, ka) →
        updateCacheParamsFromString cfg s
          = { s with
              mLowwaterThresholdBytes := (specCacheParams lo hi ka).1
              mHighwaterThresholdBytes := (specCacheParams lo hi ka).2.1
              mKeepAliveIntervalUs := (specCacheParams lo hi ka).2.2 }) := by
  constructor
  · intro h
    unfold updateCacheParamsFromString
    rw [h]
  · intro lo hi ka h
    unfold updateCacheParamsFromString specCacheParams
    rw [h]
    dsimp only
    by_cases hrev : (if lo ≥ 0 then (lo * 1024).toNat else kDefaultLowWaterThreshold)
        ≥ (if hi ≥ 0 then (hi * 1024).toNat else kDefaultHighWaterThreshold)
    · simp only [if_pos hrev]
    · simp only [if_neg hrev]

/-- C8 witness: "3/5000/7" parses as three tokens and sets all parameters. -/
theorem c8_updateCacheParams_witness :
    scanCacheParams "3/5000/7" = some (3, 5000, 7)
    ∧ updateCacheParamsFromString "3/5000/7" (mkEngine none false false)
      = { mkEngine none false false with
          mLowwaterThresholdBytes := (specCacheParams 3 5000 7).1
          mHighwaterThresholdBytes := (specCacheParams 3 5000 7).2.1
          mKeepAliveIntervalUs := (specCacheParams 3 5000 7).2.2 } :=
  ⟨by decide,
   (c8_updateCacheParams_spec "3/5000/7" (mkEngine none false false)).2
     3 5000 7 (by decide)⟩

/-- C7: approxDataRemaining_l returns max(0, cache_offset + total_size -
last_access_pos) and reports the engine's final status, masked to OK whenever
the status is non-OK but retries remain. -/
theorem c7_approxDataRemaining_spec (s : EngineState) :
    ((approxDataRemaining_l s).1 : Int)
        = max 0 (s.mCacheOffset + (s.total : Int) - s.mLastAccessPos)
    ∧ (approxDataRemaining_l s).2
        = (if s.mFinalStatus ≠ OK ∧ s.mNumRetriesLeft > 0 then OK
           else s.mFinalStatus) := by
  unfold approxDataRemaining_l
  dsimp only
  constructor
  · split
    next h => omega
    next h => omega
  · split <;> rfl

end NuCached
